import Mathlib

/-!
The goroutine event bridge of gosexy/redis (`main.c`).

A shallow embedding of the C glue in `src/main_c.c` that connects a hiredis
asynchronous context to the Go host, and proofs of its specified behaviour.

Conventions of the embedding.

* A pointer is a natural number, `NULL` is `0`.  Connection contexts and
  event subscriptions live in two typed stores of the `World`; address `p`
  names cell `p - 1` of its store, so `NULL` never names a cell.
* Dereferencing a pointer that names no live cell is a fault: the embedded
  function returns `none`.  The allocator can run out of cells, in which
  case `malloc` returns `NULL`.
* Replies are immutable trees and are passed by value; a nullable reply
  pointer is an `Option redisReply`.
* Every embedded source function returns, besides its C return value and the
  memory it leaves, the list of calls it makes to its collaborators (the Go
  host and the hiredis client), in program order.  The collaborators are not
  part of `main.c`; where a statement needs their behaviour it is modelled
  from the specification and marked as such.
-/

namespace GoRedis

/-! ## Data model -/

/-- An address; `NULL` is `0`. -/
abbrev Ptr := Nat

/-- The null pointer. -/
def NULL : Ptr := 0

/-- Status code for success.  The macro is defined in `hiredis.h`, which is
not among the sources; it has the value hiredis gives it, and the proofs use
only that it differs from `REDIS_ERR`. -/
def REDIS_OK : Int := 0

/-- Status code for failure, a macro of `hiredis.h` like `REDIS_OK`. -/
def REDIS_ERR : Int := -1

/-- Modelled from the spec: the struct `redisReply` is declared in
`hiredis.h`, which is not among the sources.  It carries the two fields
`main.c` reads, the type tag `type` and the element vector (`elements`,
`element`), and the payloads of the reply variants of the specification, the
integer and the possibly absent string.  A null `element` pointer and a
vector of zero elements are both the empty list: indexing faults on either. -/
inductive redisReply where
  | mk (type : Int) (integer : Int) (str : Option (List Nat)) (element : List redisReply)

/-- The field `r->type`. -/
def redisReply.type : redisReply → Int
  | .mk t _ _ _ => t

/-- The field `r->element`, as the list of the replies it points to. -/
def redisReply.element : redisReply → List redisReply
  | .mk _ _ _ es => es

/-- Values a hook slot of `ac->ev` can hold: null, one of the five static
functions of the bridge, or the address of any other function. -/
inductive HookFn where
  | null
  | redisGoroutineAddRead
  | redisGoroutineDelRead
  | redisGoroutineAddWrite
  | redisGoroutineDelWrite
  | redisGoroutineCleanup
  | other (addr : Nat)
  deriving DecidableEq

/-- Values a reply-callback slot can hold: null, `redisAsyncCatch`, or the
address of any other function. -/
inductive ReplyFn where
  | null
  | redisAsyncCatch
  | other (addr : Nat)
  deriving DecidableEq

/-- The member `ev` of `redisAsyncContext`: the subscription slot `data` and
the five hooks. -/
structure EvSlot where
  data : Ptr
  addRead : HookFn
  delRead : HookFn
  addWrite : HookFn
  delWrite : HookFn
  cleanup : HookFn
  deriving DecidableEq

/-- Modelled from the spec: a pending entry of the command queue, which
hiredis keeps and `main.c` never touches: the callback and the userData the
command was submitted with. -/
structure redisCallback where
  fn : ReplyFn
  privdata : Ptr
  deriving DecidableEq

/-- Modelled from the spec: the connection-level errors of its error
taxonomy. -/
inductive ConnError where
  | ProtocolError
  | ConnectionError
  | QueueUnderflow
  deriving DecidableEq

/-- Modelled from the spec: the struct `redisAsyncContext` is declared in
`async.h`, which is not among the sources.  It carries the event slot `ev`
that `main.c` reads and writes, and, from the data model of the
specification, the command queue, the output buffer (kept as the sequence of
submitted argument vectors, byte formatting being the codec's) and the last
error. -/
structure redisAsyncContext where
  ev : EvSlot
  replies : List redisCallback
  obuf : List (List (List Nat))
  err : Option ConnError
  deriving DecidableEq

/-- The struct `redisGoroutineEvents`, the subscription.  Its declaration is
not among the sources; it holds the one field `main.c` writes and reads, the
back-reference `context`. -/
structure redisGoroutineEvents where
  context : Ptr
  deriving DecidableEq

/-- A cell of the subscription store: released, allocated but not yet
written, or holding a subscription. -/
inductive Cell where
  | freed
  | raw
  | live (obj : redisGoroutineEvents)
  deriving DecidableEq

/-- Memory and host state.  `ctxs` and `events` are the two stores, and
`avail` is the number of cells the allocator can still hand out; when it is
`0`, `malloc` fails.  The state of the Go host follows the
specification: `reading` and `writing` are the subscriptions whose read,
respectively write, interest is registered with the host scheduler, and
`received` lists the arguments of every `asyncReceive` call the host has
got, oldest first. -/
structure World where
  ctxs : List redisAsyncContext
  events : List Cell
  avail : Nat
  reading : List Ptr
  writing : List Ptr
  received : List (Option redisReply × Ptr)

/-- Dereference a context pointer. -/
def World.ctx (w : World) (p : Ptr) : Option redisAsyncContext :=
  if p = NULL then none else w.ctxs[p - 1]?

/-- Store through a context pointer. -/
def World.setCtx (w : World) (p : Ptr) (c : redisAsyncContext) : World :=
  { w with ctxs := w.ctxs.set (p - 1) c }

/-- Dereference a subscription pointer: a read through a pointer that is
null or names no cell that holds a subscription is a fault. -/
def World.event (w : World) (p : Ptr) : Option redisGoroutineEvents :=
  if p = NULL then none
  else
    match w.events[p - 1]? with
    | some (Cell.live obj) => some obj
    | _ => none

/-- Store through a subscription pointer: a write through a pointer that is
null or names no allocated cell is a fault. -/
def World.setEvent (w : World) (p : Ptr) (obj : redisGoroutineEvents) : Option World :=
  if p = NULL then none
  else
    match w.events[p - 1]? with
    | some Cell.raw => some { w with events := w.events.set (p - 1) (Cell.live obj) }
    | some (Cell.live _) => some { w with events := w.events.set (p - 1) (Cell.live obj) }
    | _ => none

/-- The allocation `malloc(sizeof(redisGoroutineEvents))`: `NULL` when the
allocator has no cell left, otherwise the address of a fresh cell that is
not yet written. -/
def World.malloc (w : World) : Ptr × World :=
  if w.avail = 0 then (NULL, w)
  else (w.events.length + 1,
    { w with events := w.events ++ [Cell.raw], avail := w.avail - 1 })

/-- The store after a successful allocation whose cell has been written with
`obj`. -/
def World.withCell (w : World) (obj : redisGoroutineEvents) : World :=
  { w with events := w.events ++ [Cell.live obj], avail := w.avail - 1 }

/-- Calls into the Go host, the functions declared by `_cgo_export.h`. -/
inductive GoCall where
  | asyncReceive (reply : Option redisReply) (privdata : Ptr)
  | redisEventAddRead (e : Ptr)
  | redisEventDelRead (e : Ptr)
  | redisEventAddWrite (e : Ptr)
  | redisEventDelWrite (e : Ptr)
  | redisEventCleanup (e : Ptr)

/-- Calls into the hiredis client, the functions of `async.c`. -/
inductive HiredisCall where
  | redisAsyncCommandArgv (ac : Ptr) (fn : ReplyFn) (privdata : Ptr) (argc : Int)
      (argv : List (List Nat)) (argvlen : List Nat)
  | redisAsyncHandleRead (ac : Ptr)
  | redisAsyncHandleWrite (ac : Ptr)

/-! ## The functions of `main.c` -/

/-- `redisAsyncCatch`: hands the reply pointer and `privdata` to the
receive function of the host; `c` is not used. -/
def redisAsyncCatch (_c : Ptr) (r : Option redisReply) (privdata : Ptr) : List GoCall :=
  [GoCall.asyncReceive r privdata]

/-- `redisAsyncCommandArgvWrapper`: a tail call of `redisAsyncCommandArgv`
with `redisAsyncCatch` as the callback; the C return value is the value that
call returns, and the parameter `fn` is not used. -/
def redisAsyncCommandArgvWrapper (ac : Ptr) (_fn : Ptr) (privdata : Ptr) (argc : Int)
    (argv : List (List Nat)) (argvlen : List Nat) : HiredisCall :=
  HiredisCall.redisAsyncCommandArgv ac ReplyFn.redisAsyncCatch privdata argc argv argvlen

/-- `redisGetReplyType`: the type tag of a reply, `-1` for a null pointer. -/
def redisGetReplyType (r : Option redisReply) : Int :=
  match r with
  | some reply => reply.type
  | none => -1

/-- `redisReplyGetElement`: `el->element[i]`.  The pointee of `el` is passed
in and handed back next to the returned element; the function writes
nothing.  A null `el` or an index outside the element vector is a fault. -/
def redisReplyGetElement (el : Option redisReply) (i : Int) :
    Option (redisReply × redisReply) :=
  match el with
  | none => none
  | some reply =>
    if i < 0 then none
    else
      match reply.element[i.toNat]? with
      | none => none
      | some x => some (x, reply)

/-- `redisGoroutineReadEvent`: one call of the read handler on `e->context`. -/
def redisGoroutineReadEvent (w : World) (arg : Ptr) : Option (List HiredisCall) :=
  match w.event arg with
  | none => none
  | some e => some [HiredisCall.redisAsyncHandleRead e.context]

/-- `redisGoroutineWriteEvent`: one call of the write handler on `e->context`. -/
def redisGoroutineWriteEvent (w : World) (arg : Ptr) : Option (List HiredisCall) :=
  match w.event arg with
  | none => none
  | some e => some [HiredisCall.redisAsyncHandleWrite e.context]

/-- `redisGoroutineAddRead`. -/
def redisGoroutineAddRead (privdata : Ptr) : List GoCall :=
  [GoCall.redisEventAddRead privdata]

/-- `redisGoroutineDelRead`. -/
def redisGoroutineDelRead (privdata : Ptr) : List GoCall :=
  [GoCall.redisEventDelRead privdata]

/-- `redisGoroutineAddWrite`. -/
def redisGoroutineAddWrite (privdata : Ptr) : List GoCall :=
  [GoCall.redisEventAddWrite privdata]

/-- `redisGoroutineDelWrite`. -/
def redisGoroutineDelWrite (privdata : Ptr) : List GoCall :=
  [GoCall.redisEventDelWrite privdata]

/-- `redisGoroutineCleanup`. -/
def redisGoroutineCleanup (privdata : Ptr) : List GoCall :=
  [GoCall.redisEventCleanup privdata]

/-- `redisGoroutineAttach`: refuses a context whose slot `ev.data` is
already set; otherwise allocates the subscription, points it back at `ac`,
installs the five hooks and stores the subscription in the slot.  The result
of `malloc` is not checked: when it is `NULL` the store `e->context = ac`
faults.  The parameter `ev` is not used.  No collaborator is called. -/
def redisGoroutineAttach (w : World) (ac : Ptr) (_ev : Ptr) :
    Option (Int × World × List GoCall) :=
  match w.ctx ac with
  | none => none
  | some c =>
    if c.ev.data ≠ NULL then some (REDIS_ERR, w, [])
    else
      let (e, w1) := w.malloc
      match w1.setEvent e { context := ac } with
      | none => none
      | some w2 =>
        let slot : EvSlot :=
          { data := e
            addRead := HookFn.redisGoroutineAddRead
            delRead := HookFn.redisGoroutineDelRead
            addWrite := HookFn.redisGoroutineAddWrite
            delWrite := HookFn.redisGoroutineDelWrite
            cleanup := HookFn.redisGoroutineCleanup }
        some (REDIS_OK, w2.setCtx ac { c with ev := slot }, [])

/-- A call through a hook slot, `hook(privdata)`: the function the slot
names is run.  Calling a null slot is a fault, and a function outside
`main.c` cannot be run here. -/
def callHook (f : HookFn) (privdata : Ptr) : Option (List GoCall) :=
  match f with
  | HookFn.null => none
  | HookFn.redisGoroutineAddRead => some (redisGoroutineAddRead privdata)
  | HookFn.redisGoroutineDelRead => some (redisGoroutineDelRead privdata)
  | HookFn.redisGoroutineAddWrite => some (redisGoroutineAddWrite privdata)
  | HookFn.redisGoroutineDelWrite => some (redisGoroutineDelWrite privdata)
  | HookFn.redisGoroutineCleanup => some (redisGoroutineCleanup privdata)
  | HookFn.other _ => none

/-- A call through a reply-callback slot, `fn(c, r, privdata)`. -/
def callReplyFn (f : ReplyFn) (c : Ptr) (r : Option redisReply) (privdata : Ptr) :
    Option (List GoCall) :=
  match f with
  | ReplyFn.null => none
  | ReplyFn.redisAsyncCatch => some (redisAsyncCatch c r privdata)
  | ReplyFn.other _ => none

/-! ## The collaborators, modelled from the specification -/

/-- Release of a subscription cell: the cell is no longer live. -/
def World.free (w : World) (p : Ptr) : World :=
  if p = NULL then w else { w with events := w.events.set (p - 1) Cell.freed }

/-- Modelled from the spec: release of a subscription by the Go host, which
is not among the sources.  In the data model of the specification a context
has an Event Subscription exactly while one is attached, and an attach is
refused only without an intervening cleanup: so the context the subscription
points back to, when its slot holds this subscription, is left with an empty
slot, and the cell is released. -/
def World.release (w : World) (e : Ptr) : World :=
  match w.event e with
  | none => w
  | some s =>
    match w.ctx s.context with
    | none => w.free e
    | some c =>
      if c.ev.data = e then
        (w.setCtx s.context { c with ev := { c.ev with data := NULL } }).free e
      else w.free e

/-- Modelled from the spec: the Go functions exported to C (`asyncReceive`
and the five `redisEvent*` scheduler primitives) are not among the sources.
`asyncReceive` takes delivery of a reply and its userData.  The add
primitives ensure the interest flag of the subscription is registered, a
second call being a no-op; the del primitives withdraw it, a no-op when it is
not registered; cleanup unregisters all interest and releases the
subscription (`World.release`). -/
def GoCall.run (call : GoCall) (w : World) : World :=
  match call with
  | GoCall.asyncReceive r p => { w with received := w.received ++ [(r, p)] }
  | GoCall.redisEventAddRead e =>
    { w with reading := if e ∈ w.reading then w.reading else e :: w.reading }
  | GoCall.redisEventDelRead e => { w with reading := w.reading.filter (fun x => x ≠ e) }
  | GoCall.redisEventAddWrite e =>
    { w with writing := if e ∈ w.writing then w.writing else e :: w.writing }
  | GoCall.redisEventDelWrite e => { w with writing := w.writing.filter (fun x => x ≠ e) }
  | GoCall.redisEventCleanup e =>
    { w.release e with
      reading := w.reading.filter (fun x => x ≠ e)
      writing := w.writing.filter (fun x => x ≠ e) }

/-- The host runs a sequence of calls in order. -/
def runGo (calls : List GoCall) (w : World) : World :=
  calls.foldl (fun v call => call.run v) w

/-- The registered interest of subscription `e`: whether its read interest
and whether its write interest is registered with the host scheduler. -/
def World.interest (w : World) (e : Ptr) : Bool × Bool :=
  (decide (e ∈ w.reading), decide (e ∈ w.writing))

/-- Modelled from the spec: how the hiredis client (not among the sources)
asks the bridge to ensure write interest.  It calls the hook in
`ev.addWrite` on `ev.data`; with an empty slot there is no bridge to ask. -/
def requestWrite (w : World) (c : redisAsyncContext) : Option World :=
  if c.ev.addWrite = HookFn.null then some w
  else (callHook c.ev.addWrite c.ev.data).map (fun calls => runGo calls w)

/-- Modelled from the spec: how the hiredis client (not among the sources)
has the bridge withdraw write interest, through the hook in `ev.delWrite`. -/
def withdrawWrite (w : World) (c : redisAsyncContext) : Option World :=
  if c.ev.delWrite = HookFn.null then some w
  else (callHook c.ev.delWrite c.ev.data).map (fun calls => runGo calls w)

/-- Modelled from the spec: the condition under which the submission encoder
accepts an argument vector.  It is refused when it is empty or when a
declared length differs from the length of its element; `argc` is the number
of elements. -/
def argvOk (argc : Int) (argv : List (List Nat)) (argvlen : List Nat) : Bool :=
  decide (argv ≠ []) && decide (argc = argv.length) &&
    decide (argvlen = argv.map List.length)

/-- Modelled from the spec: `redisAsyncCommandArgv` of `async.c` is not among
the sources.  A refused argument vector gives `REDIS_ERR` and commits
nothing.  Otherwise an entry with the callback and the userData is appended
to the tail of the command queue, the frame is appended to the output
buffer, and the bridge is asked to ensure write interest. -/
def redisAsyncCommandArgv (w : World) (ac : Ptr) (fn : ReplyFn) (privdata : Ptr)
    (argc : Int) (argv : List (List Nat)) (argvlen : List Nat) : Option (Int × World) :=
  match w.ctx ac with
  | none => none
  | some c =>
    if argvOk argc argv argvlen then
      let c1 : redisAsyncContext :=
        { c with replies := c.replies ++ [{ fn := fn, privdata := privdata }]
                 obuf := c.obuf ++ [argv] }
      (requestWrite (w.setCtx ac c1) c1).map (fun w2 => (REDIS_OK, w2))
    else some (REDIS_ERR, w)

/-- Modelled from the spec: the reply dispatch adapter of the hiredis client
(not among the sources), run once per decoded reply.  It pops the head of
the command queue and invokes its callback with the reply and the entry's
userData; an entry without a callback is popped and nothing is invoked.  A
reply that finds the queue empty is reported as a fatal connection error. -/
def replyDispatch (w : World) (ac : Ptr) (r : redisReply) : Option World :=
  match w.ctx ac with
  | none => none
  | some c =>
    match c.replies with
    | [] => some (w.setCtx ac { c with err := some ConnError.QueueUnderflow })
    | cb :: rest =>
      let w1 := w.setCtx ac { c with replies := rest }
      if cb.fn = ReplyFn.null then some w1
      else (callReplyFn cb.fn ac (some r) cb.privdata).map (fun calls => runGo calls w1)

/-- Modelled from the spec: within one dispatch pass the replies decoded
from a single readiness event are dispatched in the order they appear in the
input buffer. -/
def processReplies (w : World) (ac : Ptr) : List redisReply → Option World
  | [] => some w
  | r :: rs =>
    match replyDispatch w ac r with
    | none => none
    | some w1 => processReplies w1 ac rs

/-- Modelled from the spec: `redisAsyncHandleRead` of `async.c` is not among
the sources.  Reading the socket and parsing belong to the transport and the
codec; `decoded` is the sequence of complete replies they yield during this
event, each of which is dispatched. -/
def redisAsyncHandleRead (w : World) (ac : Ptr) (decoded : List redisReply) :
    Option World :=
  match w.ctx ac with
  | none => none
  | some _ => processReplies w ac decoded

/-- Modelled from the spec: `redisAsyncHandleWrite` of `async.c` is not among
the sources.  The transport takes the first `sent` frames of the output
buffer; once the buffer is flushed write interest is withdrawn, and while it
is non-empty write interest is requested. -/
def redisAsyncHandleWrite (w : World) (ac : Ptr) (sent : Nat) : Option World :=
  match w.ctx ac with
  | none => none
  | some c =>
    let c1 : redisAsyncContext := { c with obuf := c.obuf.drop sent }
    if c1.obuf = [] then withdrawWrite (w.setCtx ac c1) c1
    else requestWrite (w.setCtx ac c1) c1

/-- What the transport and the codec deliver during one readiness event: the
complete replies decoded from the socket and the number of frames the socket
accepted. -/
structure EventInput where
  decoded : List redisReply
  sent : Nat

/-- The client runs one call; the result is the returned status (`REDIS_OK`
for the handlers, which return nothing) and the state it leaves. -/
def HiredisCall.run (call : HiredisCall) (input : EventInput) (w : World) :
    Option (Int × World) :=
  match call with
  | HiredisCall.redisAsyncCommandArgv ac fn privdata argc argv argvlen =>
    GoRedis.redisAsyncCommandArgv w ac fn privdata argc argv argvlen
  | HiredisCall.redisAsyncHandleRead ac =>
    (GoRedis.redisAsyncHandleRead w ac input.decoded).map (fun w1 => (REDIS_OK, w1))
  | HiredisCall.redisAsyncHandleWrite ac =>
    (GoRedis.redisAsyncHandleWrite w ac input.sent).map (fun w1 => (REDIS_OK, w1))

/-- The client runs a sequence of calls in order on the same event input. -/
def runHiredis (input : EventInput) (w : World) : List HiredisCall → Option World
  | [] => some w
  | call :: rest =>
    match call.run input w with
    | none => none
    | some (_, w1) => runHiredis input w1 rest

/-! ## Driving the bridge -/

/-- The arguments of one call of `redisAsyncCommandArgvWrapper`. -/
structure Submission where
  fn : Ptr
  privdata : Ptr
  argc : Int
  argv : List (List Nat)
  argvlen : List Nat

/-- One submission: the call `redisAsyncCommandArgvWrapper` makes, run by the
client. -/
def submit (w : World) (ac : Ptr) (s : Submission) : Option (Int × World) :=
  (redisAsyncCommandArgvWrapper ac s.fn s.privdata s.argc s.argv s.argvlen).run
    { decoded := [], sent := 0 } w

/-- A sequence of submissions in order, with the status each returned. -/
def submitAll (w : World) (ac : Ptr) : List Submission → Option (List Int × World)
  | [] => some ([], w)
  | s :: ss =>
    match submit w ac s with
    | none => none
    | some (rc, w1) =>
      match submitAll w1 ac ss with
      | none => none
      | some (rcs, w2) => some (rc :: rcs, w2)

/-- One read-readiness event: the scheduler calls `redisGoroutineReadEvent`
on the subscription, and the client runs the calls it makes on the replies
decoded during the event. -/
def readEvent (w : World) (e : Ptr) (decoded : List redisReply) : Option World :=
  match redisGoroutineReadEvent w e with
  | none => none
  | some calls => runHiredis { decoded := decoded, sent := 0 } w calls

/-- A sequence of read-readiness events in order. -/
def readEvents (w : World) (e : Ptr) : List (List redisReply) → Option World
  | [] => some w
  | rs :: rest =>
    match readEvent w e rs with
    | none => none
    | some w1 => readEvents w1 e rest

/-- The queue entry a submission through the wrapper leaves. -/
def Submission.entry (s : Submission) : redisCallback :=
  { fn := ReplyFn.redisAsyncCatch, privdata := s.privdata }

/-! ## Concrete states -/

/-- A context with nothing attached, an empty queue and an empty buffer. -/
def freshContext : redisAsyncContext :=
  { ev := { data := NULL, addRead := HookFn.null, delRead := HookFn.null,
            addWrite := HookFn.null, delWrite := HookFn.null, cleanup := HookFn.null }
    replies := [], obuf := [], err := none }

/-- A world holding one fresh context, at address 1. -/
def freshWorld : World :=
  { ctxs := [freshContext], events := [], avail := 4, reading := [], writing := [],
    received := [] }

/-- The fresh world with an allocator that has no cell left. -/
def exhaustedWorld : World :=
  { freshWorld with avail := 0 }

/-- The context of `freshWorld` after a successful attach. -/
def attachedContext : redisAsyncContext :=
  { freshContext with
    ev := { data := 1
            addRead := HookFn.redisGoroutineAddRead
            delRead := HookFn.redisGoroutineDelRead
            addWrite := HookFn.redisGoroutineAddWrite
            delWrite := HookFn.redisGoroutineDelWrite
            cleanup := HookFn.redisGoroutineCleanup } }

/-- The world `redisGoroutineAttach` leaves when run on `freshWorld`. -/
def attachedWorld : World :=
  { freshWorld with
    ctxs := [attachedContext], events := [Cell.live { context := 1 }], avail := 3 }

/-- A status reply, type tag 5. -/
def statusReply : redisReply := redisReply.mk 5 0 (some [79, 75]) []

/-- An integer reply, type tag 3. -/
def integerReply (n : Int) : redisReply := redisReply.mk 3 n none []

/-- An error reply, type tag 6. -/
def errorReply : redisReply := redisReply.mk 6 0 (some [69, 82, 82]) []

/-- An array reply, type tag 2, of three elements. -/
def arrayReply : redisReply :=
  redisReply.mk 2 0 none [integerReply 10, statusReply, integerReply 30]

/-- A well-formed submission of the one-word command `PING` with userData `p`. -/
def pingWith (fn p : Ptr) : Submission :=
  { fn := fn, privdata := p, argc := 1, argv := [[80, 73, 78, 71]], argvlen := [4] }

/-! ## Memory lemmas -/

theorem ctx_some_index {w : World} {p : Ptr} {c : redisAsyncContext}
    (h : w.ctx p = some c) : p ≠ NULL ∧ w.ctxs[p - 1]? = some c := by
  unfold World.ctx at h
  by_cases hp : p = NULL
  · simp [hp] at h
  · simp [hp] at h
    exact ⟨hp, h⟩

theorem ctx_setCtx_same {w : World} {p : Ptr} {c : redisAsyncContext}
    (c1 : redisAsyncContext) (h : w.ctx p = some c) : (w.setCtx p c1).ctx p = some c1 := by
  obtain ⟨hp, hi⟩ := ctx_some_index h
  have hlt : p - 1 < w.ctxs.length := (List.getElem?_eq_some.mp hi).1
  simp [World.ctx, World.setCtx, hp, hlt]

theorem event_setCtx (w : World) (p q : Ptr) (c : redisAsyncContext) :
    (w.setCtx p c).event q = w.event q := rfl

theorem event_fresh (w : World) : w.event (w.events.length + 1) = none := by
  simp [World.event, NULL]

theorem set_append_last {α : Type} (l : List α) (a b : α) :
    (l ++ [a]).set l.length b = l ++ [b] := by
  induction l with
  | nil => rfl
  | cons x xs ih => simp [ih]

theorem malloc_ne_null {w : World} (h : (w.malloc).1 ≠ NULL) : w.avail ≠ 0 := by
  intro h0
  simp [World.malloc, h0] at h

theorem malloc_of_avail {w : World} (h : w.avail ≠ 0) : (w.malloc).1 ≠ NULL := by
  simp [World.malloc, h, NULL]

theorem event_withCell (w : World) (obj : redisGoroutineEvents) :
    (w.withCell obj).event (w.events.length + 1) = some obj := by
  simp [World.event, World.withCell, NULL]

theorem attach_null_slot {w : World} {ac : Ptr} {c : redisAsyncContext} (ev : Ptr)
    (hc : w.ctx ac = some c) (hd : c.ev.data = NULL) (ha : w.avail ≠ 0) :
    redisGoroutineAttach w ac ev =
      some (REDIS_OK,
        (w.withCell { context := ac }).setCtx ac
          { c with ev :=
              { data := w.events.length + 1
                addRead := HookFn.redisGoroutineAddRead
                delRead := HookFn.redisGoroutineDelRead
                addWrite := HookFn.redisGoroutineAddWrite
                delWrite := HookFn.redisGoroutineDelWrite
                cleanup := HookFn.redisGoroutineCleanup } }, []) := by
  simp [redisGoroutineAttach, hc, hd, World.malloc, ha, World.setEvent, NULL,
    set_append_last, World.withCell]

theorem attach_exhausted {w : World} {ac : Ptr} {c : redisAsyncContext} (ev : Ptr)
    (hc : w.ctx ac = some c) (hd : c.ev.data = NULL) (ha : w.avail = 0) :
    redisGoroutineAttach w ac ev = none := by
  simp [redisGoroutineAttach, hc, hd, World.malloc, ha, World.setEvent]

theorem attach_set_slot {w : World} {ac : Ptr} {c : redisAsyncContext} (ev : Ptr)
    (hc : w.ctx ac = some c) (hd : c.ev.data ≠ NULL) :
    redisGoroutineAttach w ac ev = some (REDIS_ERR, w, []) := by
  simp [redisGoroutineAttach, hc, hd]

theorem attach_ok_inv {w w1 : World} {ac ev : Ptr} {cs : List GoCall}
    (h : redisGoroutineAttach w ac ev = some (REDIS_OK, w1, cs)) :
    ∃ c, w.ctx ac = some c ∧ c.ev.data = NULL ∧ w.avail ≠ 0 := by
  cases hc : w.ctx ac with
  | none => simp [redisGoroutineAttach, hc] at h
  | some c =>
    by_cases hd : c.ev.data = NULL
    · refine ⟨c, rfl, hd, ?_⟩
      intro ha
      rw [attach_exhausted ev hc hd ha] at h
      simp at h
    · rw [attach_set_slot ev hc hd] at h
      simp [REDIS_OK, REDIS_ERR] at h

/-- An attach on an empty slot is never refused: it returns `REDIS_OK` or
faults in the allocation. -/
theorem attach_null_slot_not_err {w w1 : World} {ac ev : Ptr} {c : redisAsyncContext}
    {cs : List GoCall} (hc : w.ctx ac = some c) (hd : c.ev.data = NULL) :
    redisGoroutineAttach w ac ev ≠ some (REDIS_ERR, w1, cs) := by
  intro h
  by_cases ha : w.avail = 0
  · rw [attach_exhausted ev hc hd ha] at h
    simp at h
  · rw [attach_null_slot ev hc hd ha] at h
    simp [REDIS_OK, REDIS_ERR] at h

theorem pred_ne_pred (p q : Nat) (hp : p ≠ 0) (hq : q ≠ 0) (h : q ≠ p) :
    p - 1 ≠ q - 1 := by
  omega

theorem ctx_setCtx_other (w : World) (p q : Ptr) (c : redisAsyncContext)
    (hp : p ≠ NULL) (hq : q ≠ p) : (w.setCtx p c).ctx q = w.ctx q := by
  by_cases hq0 : q = NULL
  · simp [World.ctx, hq0]
  · have hne : p - 1 ≠ q - 1 := pred_ne_pred p q hp hq0 hq
    simp [World.ctx, World.setCtx, hq0, List.getElem?_set_ne hne]

theorem event_withCell_old (w : World) (obj x : redisGoroutineEvents) (q : Ptr)
    (h : w.event q = some x) : (w.withCell obj).event q = some x := by
  unfold World.event at h ⊢
  by_cases hq0 : q = NULL
  · simp [hq0] at h
  · simp only [hq0, if_false] at h ⊢
    cases hi : w.events[q - 1]? with
    | none => simp [hi] at h
    | some cell =>
      have hlt : q - 1 < w.events.length := (List.getElem?_eq_some.mp hi).1
      simp only [World.withCell, List.getElem?_append_left hlt]
      rw [hi] at h ⊢
      exact h

/-! ## Properties of `main.c` -/

/-- C9: `redisGetReplyType` is total; for a present reply it returns that
reply's type field, for an absent reply it returns `-1`, and so it returns
`-1` on a present reply only when that reply's type field is `-1`. -/
theorem redisGetReplyType_spec :
    (∀ r : redisReply, redisGetReplyType (some r) = r.type) ∧
    redisGetReplyType none = -1 ∧
    (∀ r : redisReply, redisGetReplyType (some r) = -1 → r.type = -1) ∧
    (∀ r : Option redisReply,
      redisGetReplyType r = (r.map redisReply.type).getD (-1)) :=
  ⟨fun _ => rfl, rfl, fun _ h => h, fun r => by cases r <;> rfl⟩

/-- C10: for a reply `el` with `n` elements and an index `0 ≤ i < n`,
`redisReplyGetElement el i` does not fault, returns the `i`-th element of
the element vector, and leaves `el` as it was. -/
theorem redisReplyGetElement_in_range (el : redisReply) (i : Int)
    (h0 : 0 ≤ i) (hn : i < el.element.length) :
    ∃ x, el.element[i.toNat]? = some x ∧
      redisReplyGetElement (some el) i = some (x, el) := by
  have hlt : i.toNat < el.element.length := by omega
  refine ⟨el.element[i.toNat], List.getElem?_eq_getElem hlt, ?_⟩
  have hneg : ¬ i < 0 := by omega
  simp [redisReplyGetElement, hneg, List.getElem?_eq_getElem hlt]

theorem redisReplyGetElement_in_range_witness :
    ∃ x, arrayReply.element[(2 : Int).toNat]? = some x ∧
      redisReplyGetElement (some arrayReply) 2 = some (x, arrayReply) :=
  redisReplyGetElement_in_range arrayReply 2 (by decide) (by decide)

/-- C1: on a context whose subscription slot is already set,
`redisGoroutineAttach` returns `REDIS_ERR`, calls nothing and leaves the
whole state, the slot and the five hooks included, as it was.  Every attach
that returned `REDIS_OK` is followed, on the state it left, by an attach that
returns `REDIS_ERR` and leaves that state; on a context with an empty slot
the first attach does return `REDIS_OK` whenever its allocation succeeds. -/
theorem redisGoroutineAttach_already_attached (w : World) (ac ev ev2 : Ptr)
    (c : redisAsyncContext) (hc : w.ctx ac = some c) :
    (c.ev.data ≠ NULL →
      redisGoroutineAttach w ac ev = some (REDIS_ERR, w, []) ∧ w.ctx ac = some c) ∧
    (∀ w1 cs, redisGoroutineAttach w ac ev = some (REDIS_OK, w1, cs) →
      redisGoroutineAttach w1 ac ev2 = some (REDIS_ERR, w1, [])) ∧
    (c.ev.data = NULL → (w.malloc).1 ≠ NULL →
      ∃ w1, redisGoroutineAttach w ac ev = some (REDIS_OK, w1, []) ∧
        redisGoroutineAttach w1 ac ev2 = some (REDIS_ERR, w1, [])) := by
  have key : ∀ w1 cs, redisGoroutineAttach w ac ev = some (REDIS_OK, w1, cs) →
      redisGoroutineAttach w1 ac ev2 = some (REDIS_ERR, w1, []) := by
    intro w1 cs h
    obtain ⟨c0, hc0, hd0, ha0⟩ := attach_ok_inv h
    rw [attach_null_slot ev hc0 hd0 ha0] at h
    simp only [Option.some.injEq, Prod.mk.injEq, true_and] at h
    obtain ⟨hw, _⟩ := h
    subst hw
    have hc1 := ctx_setCtx_same (w := w.withCell { context := ac })
      { c0 with ev :=
          { data := w.events.length + 1
            addRead := HookFn.redisGoroutineAddRead
            delRead := HookFn.redisGoroutineDelRead
            addWrite := HookFn.redisGoroutineAddWrite
            delWrite := HookFn.redisGoroutineDelWrite
            cleanup := HookFn.redisGoroutineCleanup } } hc0
    exact attach_set_slot ev2 hc1 (by simp [NULL])
  refine ⟨fun hd => ⟨attach_set_slot ev hc hd, hc⟩, key, ?_⟩
  intro hd hm
  have h := attach_null_slot ev hc hd (malloc_ne_null hm)
  exact ⟨_, h, key _ _ h⟩

theorem redisGoroutineAttach_already_attached_witness :
    (redisGoroutineAttach attachedWorld 1 0 = some (REDIS_ERR, attachedWorld, []) ∧
      attachedWorld.ctx 1 = some attachedContext) ∧
    (∃ w1, redisGoroutineAttach freshWorld 1 0 = some (REDIS_OK, w1, []) ∧
      redisGoroutineAttach w1 1 0 = some (REDIS_ERR, w1, [])) :=
  ⟨(redisGoroutineAttach_already_attached attachedWorld 1 0 0 attachedContext rfl).1
      (by decide),
   (redisGoroutineAttach_already_attached freshWorld 1 0 0 freshContext rfl).2.2 rfl
      (by decide)⟩

/-- C2, as amended: on a context whose subscription slot is empty, whenever
the allocation of the subscription succeeds (`malloc` returns a non-null
pointer), `redisGoroutineAttach` returns `REDIS_OK`; the slot then holds a
non-null subscription that was not allocated before and whose back-reference
is the context itself, the five hooks are the five functions of the bridge,
the rest of the context is as it was, and no collaborator is called: the
call list is empty and the registered read and write interest is
untouched. -/
theorem redisGoroutineAttach_fresh (w : World) (ac ev : Ptr) (c : redisAsyncContext)
    (hc : w.ctx ac = some c) (hd : c.ev.data = NULL) (hm : (w.malloc).1 ≠ NULL) :
    ∃ w1 e, redisGoroutineAttach w ac ev = some (REDIS_OK, w1, []) ∧
      e ≠ NULL ∧ w.event e = none ∧ w1.event e = some { context := ac } ∧
      w1.ctx ac = some
        { c with ev :=
            { data := e
              addRead := HookFn.redisGoroutineAddRead
              delRead := HookFn.redisGoroutineDelRead
              addWrite := HookFn.redisGoroutineAddWrite
              delWrite := HookFn.redisGoroutineDelWrite
              cleanup := HookFn.redisGoroutineCleanup } } ∧
      w1.reading = w.reading ∧ w1.writing = w.writing ∧ w1.received = w.received := by
  refine ⟨_, w.events.length + 1, attach_null_slot ev hc hd (malloc_ne_null hm),
    by simp [NULL], event_fresh w, ?_, ?_, rfl, rfl, rfl⟩
  · rw [event_setCtx]
    exact event_withCell w { context := ac }
  · exact ctx_setCtx_same (w := w.withCell { context := ac }) _ hc

theorem redisGoroutineAttach_fresh_witness :
    ∃ w1 e, redisGoroutineAttach freshWorld 1 0 = some (REDIS_OK, w1, []) ∧
      e ≠ NULL ∧ freshWorld.event e = none ∧ w1.event e = some { context := 1 } ∧
      w1.ctx 1 = some
        { freshContext with ev :=
            { data := e
              addRead := HookFn.redisGoroutineAddRead
              delRead := HookFn.redisGoroutineDelRead
              addWrite := HookFn.redisGoroutineAddWrite
              delWrite := HookFn.redisGoroutineDelWrite
              cleanup := HookFn.redisGoroutineCleanup } } ∧
      w1.reading = freshWorld.reading ∧ w1.writing = freshWorld.writing ∧
      w1.received = freshWorld.received :=
  redisGoroutineAttach_fresh freshWorld 1 0 freshContext rfl rfl (by decide)

/-- C2, counterexample: the context of `exhaustedWorld` has an empty
subscription slot, the allocator has no cell left, `malloc` returns `NULL`,
and `redisGoroutineAttach` faults in the store through that pointer: it does
not return `REDIS_OK`. -/
theorem redisGoroutineAttach_allocation_fails :
    exhaustedWorld.ctx 1 = some freshContext ∧ freshContext.ev.data = NULL ∧
    (exhaustedWorld.malloc).1 = NULL ∧
    redisGoroutineAttach exhaustedWorld 1 0 = none ∧
    ¬ ∃ w1 cs, redisGoroutineAttach exhaustedWorld 1 0 = some (REDIS_OK, w1, cs) := by
  refine ⟨rfl, rfl, rfl, rfl, ?_⟩
  rintro ⟨w1, cs, h⟩
  have h0 : redisGoroutineAttach exhaustedWorld 1 0 = none := rfl
  rw [h0] at h
  simp at h

/-- What a successful attach leaves: the context holds the subscription at
the fresh address and the five hooks, and the subscription points back. -/
theorem attach_ok_state {w w1 : World} {ac ev : Ptr} {cs : List GoCall}
    (h : redisGoroutineAttach w ac ev = some (REDIS_OK, w1, cs)) :
    ∃ c, w.ctx ac = some c ∧ c.ev.data = NULL ∧ cs = [] ∧
      w1.event (w.events.length + 1) = some { context := ac } ∧
      w1.ctx ac = some
        { c with ev :=
            { data := w.events.length + 1
              addRead := HookFn.redisGoroutineAddRead
              delRead := HookFn.redisGoroutineDelRead
              addWrite := HookFn.redisGoroutineAddWrite
              delWrite := HookFn.redisGoroutineDelWrite
              cleanup := HookFn.redisGoroutineCleanup } } := by
  obtain ⟨c, hc, hd, ha⟩ := attach_ok_inv h
  rw [attach_null_slot ev hc hd ha] at h
  simp only [Option.some.injEq, Prod.mk.injEq, true_and] at h
  obtain ⟨hw, hcs⟩ := h
  subst hw
  refine ⟨c, hc, hd, hcs.symm, ?_, ?_⟩
  · rw [event_setCtx]
    exact event_withCell w { context := ac }
  · exact ctx_setCtx_same (w := w.withCell { context := ac }) _ hc

/-- C4: for the subscription `e` that `redisGoroutineAttach` stored on
context `ac`, `redisGoroutineReadEvent e` makes exactly one call, the read
handler on `ac`, and `redisGoroutineWriteEvent e` makes exactly one call,
the write handler on `ac`. -/
theorem event_entry_points_forward (w w1 : World) (ac ev : Ptr) (cs : List GoCall)
    (h : redisGoroutineAttach w ac ev = some (REDIS_OK, w1, cs)) :
    ∃ c1, w1.ctx ac = some c1 ∧
      redisGoroutineReadEvent w1 c1.ev.data = some [HiredisCall.redisAsyncHandleRead ac] ∧
      redisGoroutineWriteEvent w1 c1.ev.data =
        some [HiredisCall.redisAsyncHandleWrite ac] := by
  obtain ⟨c, _, _, _, he, hc1⟩ := attach_ok_state h
  refine ⟨_, hc1, ?_, ?_⟩
  · simp [redisGoroutineReadEvent, he]
  · simp [redisGoroutineWriteEvent, he]

theorem event_entry_points_forward_witness :
    ∃ c1, attachedWorld.ctx 1 = some c1 ∧
      redisGoroutineReadEvent attachedWorld c1.ev.data =
        some [HiredisCall.redisAsyncHandleRead 1] ∧
      redisGoroutineWriteEvent attachedWorld c1.ev.data =
        some [HiredisCall.redisAsyncHandleWrite 1] :=
  event_entry_points_forward freshWorld attachedWorld 1 0 [] rfl

/-- A successful `redisGoroutineAttach` writes only the event slot of `ac` and
one fresh subscription cell: every other context, every subscription that was
live, and the queue, buffer and error of `ac` are as they were. -/
theorem redisGoroutineAttach_frame (w w1 : World) (ac ev : Ptr) (cs : List GoCall)
    (h : redisGoroutineAttach w ac ev = some (REDIS_OK, w1, cs)) :
    (∀ q, q ≠ ac → w1.ctx q = w.ctx q) ∧
    (∀ q x, w.event q = some x → w1.event q = some x) ∧
    ∃ c c1, w.ctx ac = some c ∧ w1.ctx ac = some c1 ∧
      c1.replies = c.replies ∧ c1.obuf = c.obuf ∧ c1.err = c.err := by
  obtain ⟨c, hc, hd, _, _, hc1⟩ := attach_ok_state h
  obtain ⟨_, _, _, ha⟩ := attach_ok_inv h
  have hw := h
  rw [attach_null_slot ev hc hd ha] at hw
  simp only [Option.some.injEq, Prod.mk.injEq, true_and] at hw
  obtain ⟨hw, _⟩ := hw
  subst hw
  refine ⟨?_, ?_, c, _, hc, hc1, rfl, rfl, rfl⟩
  · intro q hq
    exact ctx_setCtx_other _ ac q _ (ctx_some_index hc).1 hq
  · intro q x hx
    rw [event_setCtx]
    exact event_withCell_old w _ x q hx

theorem redisGoroutineAttach_frame_witness :
    (∀ q, q ≠ 1 → attachedWorld.ctx q = freshWorld.ctx q) ∧
    (∀ q x, freshWorld.event q = some x → attachedWorld.event q = some x) ∧
    ∃ c c1, freshWorld.ctx 1 = some c ∧ attachedWorld.ctx 1 = some c1 ∧
      c1.replies = c.replies ∧ c1.obuf = c.obuf ∧ c1.err = c.err :=
  redisGoroutineAttach_frame freshWorld attachedWorld 1 0 [] rfl

/-! ## The hooks and the scheduler -/

theorem runGo_single (call : GoCall) (v : World) : runGo [call] v = call.run v := rfl

theorem runGo_append (a b : List GoCall) (v : World) :
    runGo (a ++ b) v = runGo b (runGo a v) := by
  simp [runGo, List.foldl_append]

theorem addRead_twice (e : Ptr) (v : World) :
    (GoCall.redisEventAddRead e).run ((GoCall.redisEventAddRead e).run v) =
      (GoCall.redisEventAddRead e).run v := by
  by_cases h : e ∈ v.reading <;> simp [GoCall.run, h]

theorem addWrite_twice (e : Ptr) (v : World) :
    (GoCall.redisEventAddWrite e).run ((GoCall.redisEventAddWrite e).run v) =
      (GoCall.redisEventAddWrite e).run v := by
  by_cases h : e ∈ v.writing <;> simp [GoCall.run, h]

/-- C8: for the subscription `e` stored by `redisGoroutineAttach`, each of
the four interest hooks installed on the context makes exactly one call, the
scheduler primitive of the same name on `e`.  Hence write interest requested
and then withdrawn through the hooks leaves the registered read interest as
it was, after either call, in every state of the host. -/
theorem interest_hooks_call_same_primitive (w w1 : World) (ac ev : Ptr)
    (cs : List GoCall) (h : redisGoroutineAttach w ac ev = some (REDIS_OK, w1, cs)) :
    ∃ c1 e, w1.ctx ac = some c1 ∧ c1.ev.data = e ∧
      callHook c1.ev.addRead e = some [GoCall.redisEventAddRead e] ∧
      callHook c1.ev.delRead e = some [GoCall.redisEventDelRead e] ∧
      callHook c1.ev.addWrite e = some [GoCall.redisEventAddWrite e] ∧
      callHook c1.ev.delWrite e = some [GoCall.redisEventDelWrite e] ∧
      ∀ (v : World) (a d : List GoCall),
        callHook c1.ev.addWrite e = some a → callHook c1.ev.delWrite e = some d →
        (runGo a v).reading = v.reading ∧ (runGo (a ++ d) v).reading = v.reading := by
  obtain ⟨c, _, _, _, _, hc1⟩ := attach_ok_state h
  refine ⟨_, _, hc1, rfl, rfl, rfl, rfl, rfl, ?_⟩
  intro v a d ha hd
  simp only [callHook, redisGoroutineAddWrite, redisGoroutineDelWrite,
    Option.some.injEq] at ha hd
  subst ha
  subst hd
  exact ⟨rfl, rfl⟩

theorem interest_hooks_call_same_primitive_witness :
    ∃ c1 e, attachedWorld.ctx 1 = some c1 ∧ c1.ev.data = e ∧
      callHook c1.ev.addRead e = some [GoCall.redisEventAddRead e] ∧
      callHook c1.ev.delRead e = some [GoCall.redisEventDelRead e] ∧
      callHook c1.ev.addWrite e = some [GoCall.redisEventAddWrite e] ∧
      callHook c1.ev.delWrite e = some [GoCall.redisEventDelWrite e] ∧
      ∀ (v : World) (a d : List GoCall),
        callHook c1.ev.addWrite e = some a → callHook c1.ev.delWrite e = some d →
        (runGo a v).reading = v.reading ∧ (runGo (a ++ d) v).reading = v.reading :=
  interest_hooks_call_same_primitive freshWorld attachedWorld 1 0 [] rfl

/-- C6: for a subscription attached by `redisGoroutineAttach`, calling the
addRead hook a second time with nothing in between leaves the host, its
registered interest included, exactly as after the first call; likewise for
the addWrite hook. -/
theorem add_hooks_idempotent (w w1 : World) (ac ev : Ptr) (cs : List GoCall)
    (h : redisGoroutineAttach w ac ev = some (REDIS_OK, w1, cs)) :
    ∃ c1 rd wr, w1.ctx ac = some c1 ∧
      callHook c1.ev.addRead c1.ev.data = some rd ∧
      callHook c1.ev.addWrite c1.ev.data = some wr ∧
      ∀ v : World,
        runGo rd (runGo rd v) = runGo rd v ∧
        (runGo rd (runGo rd v)).interest c1.ev.data = (runGo rd v).interest c1.ev.data ∧
        runGo wr (runGo wr v) = runGo wr v ∧
        (runGo wr (runGo wr v)).interest c1.ev.data = (runGo wr v).interest c1.ev.data := by
  obtain ⟨c, _, _, _, _, hc1⟩ := attach_ok_state h
  refine ⟨_, _, _, hc1, rfl, rfl, ?_⟩
  intro v
  have hr := addRead_twice (w.events.length + 1) v
  have hw := addWrite_twice (w.events.length + 1) v
  refine ⟨hr, ?_, hw, ?_⟩
  · exact congrArg (fun x => x.interest (w.events.length + 1)) hr
  · exact congrArg (fun x => x.interest (w.events.length + 1)) hw

theorem add_hooks_idempotent_witness :
    ∃ c1 rd wr, attachedWorld.ctx 1 = some c1 ∧
      callHook c1.ev.addRead c1.ev.data = some rd ∧
      callHook c1.ev.addWrite c1.ev.data = some wr ∧
      ∀ v : World,
        runGo rd (runGo rd v) = runGo rd v ∧
        (runGo rd (runGo rd v)).interest c1.ev.data = (runGo rd v).interest c1.ev.data ∧
        runGo wr (runGo wr v) = runGo wr v ∧
        (runGo wr (runGo wr v)).interest c1.ev.data = (runGo wr v).interest c1.ev.data :=
  add_hooks_idempotent freshWorld attachedWorld 1 0 [] rfl

theorem free_ctx (v : World) (e p : Ptr) : (v.free e).ctx p = v.ctx p := by
  by_cases he : e = NULL <;> simp [World.free, World.ctx, he]

theorem free_event (v : World) (e : Ptr) : (v.free e).event e = none := by
  by_cases he : e = NULL
  · simp [World.event, he]
  · by_cases hlt : e - 1 < v.events.length
    · simp [World.free, World.event, he, hlt]
    · have hnone : (v.events.set (e - 1) Cell.freed)[e - 1]? = none :=
        List.getElem?_eq_none (by simp only [List.length_set]; exact Nat.le_of_not_lt hlt)
      simp [World.free, World.event, he, hnone]

/-- The cleanup primitive on a subscription held by the context it points
back to: the slot of that context is emptied, the cell released and the
interest of the subscription withdrawn. -/
theorem cleanup_run_attached {v : World} {ac e : Ptr} {c1 : redisAsyncContext}
    (he : v.event e = some { context := ac }) (hc : v.ctx ac = some c1)
    (hd : c1.ev.data = e) :
    (GoCall.redisEventCleanup e).run v =
      { (v.setCtx ac { c1 with ev := { c1.ev with data := NULL } }).free e with
        reading := v.reading.filter (fun x => x ≠ e)
        writing := v.writing.filter (fun x => x ≠ e) } := by
  simp [GoCall.run, World.release, he, hc, hd]

theorem cleanup_on_attached {v : World} {ac e : Ptr} {c1 : redisAsyncContext} (ev2 : Ptr)
    (he : v.event e = some { context := ac }) (hc : v.ctx ac = some c1)
    (hd : c1.ev.data = e) :
    (runGo [GoCall.redisEventCleanup e] v).interest e = (false, false) ∧
    (runGo [GoCall.redisEventCleanup e] v).event e = none ∧
    (runGo [GoCall.redisEventCleanup e] v).ctx ac =
      some { c1 with ev := { c1.ev with data := NULL } } ∧
    (∀ w3 cs3, redisGoroutineAttach (runGo [GoCall.redisEventCleanup e] v) ac ev2 ≠
      some (REDIS_ERR, w3, cs3)) ∧
    (((runGo [GoCall.redisEventCleanup e] v).malloc).1 ≠ NULL →
      ∃ w3, redisGoroutineAttach (runGo [GoCall.redisEventCleanup e] v) ac ev2 =
        some (REDIS_OK, w3, [])) := by
  have hrun := cleanup_run_attached he hc hd
  have hctx : (runGo [GoCall.redisEventCleanup e] v).ctx ac =
      some { c1 with ev := { c1.ev with data := NULL } } := by
    rw [runGo_single, hrun]
    exact (free_ctx _ _ ac).trans (ctx_setCtx_same _ hc)
  refine ⟨?_, ?_, hctx, ?_, ?_⟩
  · rw [runGo_single, hrun]
    simp [World.interest]
  · rw [runGo_single, hrun]
    exact free_event _ _
  · intro w3 cs3
    exact attach_null_slot_not_err hctx rfl
  · intro hm
    exact ⟨_, attach_null_slot ev2 hctx rfl (malloc_ne_null hm)⟩

/-- C7: for a context freshly attached by `redisGoroutineAttach`, the
cleanup hook can be called and makes exactly one call, `redisEventCleanup`
on the subscription; after it no read or write interest of the subscription
is registered, the subscription is released and the context no longer holds
an Event Subscription, so that a following attach is not rejected as already
attached: it never returns `REDIS_ERR`, and returns `REDIS_OK` whenever its
allocation succeeds. -/
theorem cleanup_after_attach (w w1 : World) (ac ev ev2 : Ptr) (cs : List GoCall)
    (h : redisGoroutineAttach w ac ev = some (REDIS_OK, w1, cs)) :
    ∃ c1 e calls, w1.ctx ac = some c1 ∧ c1.ev.data = e ∧ e ≠ NULL ∧
      callHook c1.ev.cleanup e = some calls ∧ calls = [GoCall.redisEventCleanup e] ∧
      (runGo calls w1).interest e = (false, false) ∧
      (runGo calls w1).event e = none ∧
      (runGo calls w1).ctx ac = some { c1 with ev := { c1.ev with data := NULL } } ∧
      (∀ w3 cs3, redisGoroutineAttach (runGo calls w1) ac ev2 ≠ some (REDIS_ERR, w3, cs3)) ∧
      (((runGo calls w1).malloc).1 ≠ NULL →
        ∃ w3, redisGoroutineAttach (runGo calls w1) ac ev2 = some (REDIS_OK, w3, [])) := by
  obtain ⟨c, _, _, _, he, hc1⟩ := attach_ok_state h
  obtain ⟨h1, h2, h3, h4, h5⟩ := cleanup_on_attached ev2 he hc1 rfl
  exact ⟨_, _, _, hc1, rfl, by simp [NULL], rfl, rfl, h1, h2, h3, h4, h5⟩

theorem cleanup_after_attach_witness :
    ∃ c1 e calls, attachedWorld.ctx 1 = some c1 ∧ c1.ev.data = e ∧ e ≠ NULL ∧
      callHook c1.ev.cleanup e = some calls ∧ calls = [GoCall.redisEventCleanup e] ∧
      (runGo calls attachedWorld).interest e = (false, false) ∧
      (runGo calls attachedWorld).event e = none ∧
      (runGo calls attachedWorld).ctx 1 =
        some { c1 with ev := { c1.ev with data := NULL } } ∧
      (∀ w3 cs3,
        redisGoroutineAttach (runGo calls attachedWorld) 1 0 ≠ some (REDIS_ERR, w3, cs3)) ∧
      (((runGo calls attachedWorld).malloc).1 ≠ NULL →
        ∃ w3, redisGoroutineAttach (runGo calls attachedWorld) 1 0 =
          some (REDIS_OK, w3, [])) :=
  cleanup_after_attach freshWorld attachedWorld 1 0 0 [] rfl

/-! ## Submission and reply dispatch -/

theorem zip_append_drop {α β : Type} (a b : List α) (c : List β)
    (h : a.length ≤ c.length) :
    (a ++ b).zip c = a.zip c ++ b.zip (c.drop a.length) := by
  induction a generalizing c with
  | nil => simp
  | cons x xs ih =>
    cases c with
    | nil => simp at h
    | cons y ys =>
      have h1 : xs.length ≤ ys.length := by simpa using h
      simp [ih ys h1]

/-- One accepted submission through the wrapper on a context attached by
the bridge: the status is `REDIS_OK`, the entry joins the tail of the queue,
and neither the subscriptions nor the deliveries change. -/
theorem submit_ok {w : World} {ac : Ptr} {c : redisAsyncContext} (s : Submission)
    (hc : w.ctx ac = some c) (hk : c.ev.addWrite = HookFn.redisGoroutineAddWrite)
    (hs : argvOk s.argc s.argv s.argvlen = true) :
    ∃ w1, submit w ac s = some (REDIS_OK, w1) ∧
      w1.ctx ac = some { c with replies := c.replies ++ [s.entry]
                                obuf := c.obuf ++ [s.argv] } ∧
      w1.events = w.events ∧ w1.received = w.received := by
  have hc1 := ctx_setCtx_same
    { c with replies := c.replies ++ [s.entry], obuf := c.obuf ++ [s.argv] } hc
  refine ⟨(GoCall.redisEventAddWrite c.ev.data).run
    (w.setCtx ac { c with replies := c.replies ++ [s.entry], obuf := c.obuf ++ [s.argv] }),
    ?_, ?_, ?_, ?_⟩
  · simp only [submit, redisAsyncCommandArgvWrapper, HiredisCall.run, redisAsyncCommandArgv,
      hc, hs, requestWrite, hk, callHook, redisGoroutineAddWrite, Submission.entry]
    rfl
  · exact hc1
  · rfl
  · rfl

theorem submitAll_ok {ac : Ptr} (subs : List Submission) :
    ∀ (w : World) (c : redisAsyncContext), w.ctx ac = some c →
      c.ev.addWrite = HookFn.redisGoroutineAddWrite →
      (∀ s ∈ subs, argvOk s.argc s.argv s.argvlen = true) →
      ∃ w1 c1, submitAll w ac subs = some (List.replicate subs.length REDIS_OK, w1) ∧
        w1.ctx ac = some c1 ∧ c1.replies = c.replies ++ subs.map Submission.entry ∧
        c1.ev = c.ev ∧ c1.err = c.err ∧ w1.events = w.events ∧
        w1.received = w.received := by
  induction subs with
  | nil =>
    intro w c hc _ _
    exact ⟨w, c, rfl, hc, by simp, rfl, rfl, rfl, rfl⟩
  | cons s ss ih =>
    intro w c hc hk hs
    obtain ⟨w1, h1, hc1, he1, hr1⟩ := submit_ok s hc hk (hs s (List.mem_cons_self s ss))
    obtain ⟨w2, c2, h2, hc2, hq2, hev2, herr2, he2, hr2⟩ :=
      ih w1 _ hc1 hk (fun t ht => hs t (List.mem_cons_of_mem s ht))
    refine ⟨w2, c2, ?_, hc2, ?_, hev2, herr2, he2.trans he1, hr2.trans hr1⟩
    · simp [submitAll, h1, h2, List.replicate_succ]
    · simpa using hq2

/-- One reply dispatched to a head entry left by the wrapper: the entry is
popped and `asyncReceive` takes the reply with the entry's userData. -/
theorem replyDispatch_catch {w : World} {ac : Ptr} {c : redisAsyncContext}
    (r : redisReply) (s : Submission) (rest : List redisCallback)
    (hc : w.ctx ac = some c) (hq : c.replies = s.entry :: rest) :
    ∃ w1, replyDispatch w ac r = some w1 ∧
      w1.ctx ac = some { c with replies := rest } ∧
      w1.events = w.events ∧ w1.received = w.received ++ [(some r, s.privdata)] := by
  have hc1 := ctx_setCtx_same { c with replies := rest } hc
  refine ⟨(GoCall.asyncReceive (some r) s.privdata).run
    (w.setCtx ac { c with replies := rest }), ?_, ?_, ?_, ?_⟩
  · simp only [replyDispatch, hc, hq, Submission.entry, callReplyFn, redisAsyncCatch]
    rfl
  · exact hc1
  · rfl
  · rfl

theorem processReplies_fifo {ac : Ptr} (rs : List redisReply) :
    ∀ (w : World) (c : redisAsyncContext) (subs : List Submission),
      w.ctx ac = some c → c.replies = subs.map Submission.entry →
      rs.length ≤ subs.length →
      ∃ w1 c1, processReplies w ac rs = some w1 ∧ w1.ctx ac = some c1 ∧
        c1.replies = (subs.drop rs.length).map Submission.entry ∧ c1.ev = c.ev ∧
        c1.err = c.err ∧ w1.events = w.events ∧
        w1.received =
          w.received ++ (rs.map some).zip (subs.map (fun s => s.privdata)) := by
  induction rs with
  | nil =>
    intro w c subs hc hq _
    exact ⟨w, c, rfl, hc, by simpa using hq, rfl, rfl, rfl, by simp⟩
  | cons r rs ih =>
    intro w c subs hc hq hlen
    cases subs with
    | nil => simp at hlen
    | cons s ss =>
      have hlen1 : rs.length ≤ ss.length := by simpa using hlen
      obtain ⟨w1, h1, hc1, he1, hr1⟩ :=
        replyDispatch_catch r s (ss.map Submission.entry) hc (by simpa using hq)
      obtain ⟨w2, c2, h2, hc2, hq2, hev2, herr2, he2, hr2⟩ := ih w1 _ ss hc1 rfl hlen1
      refine ⟨w2, c2, ?_, hc2, ?_, hev2, herr2, he2.trans he1, ?_⟩
      · simp [processReplies, h1, h2]
      · simpa using hq2
      · rw [hr2, hr1]
        simp

/-- A read-readiness event on a subscription that points back at `ac` is the
read handler run on `ac` with the replies decoded during the event. -/
theorem readEvent_eq {w : World} {ac e : Ptr} (rs : List redisReply)
    (he : w.event e = some { context := ac }) :
    readEvent w e rs = redisAsyncHandleRead w ac rs := by
  simp only [readEvent, redisGoroutineReadEvent, he, runHiredis, HiredisCall.run]
  cases redisAsyncHandleRead w ac rs <;> rfl

theorem readEvents_fifo {ac e : Ptr} (events : List (List redisReply)) :
    ∀ (w : World) (c : redisAsyncContext) (subs : List Submission),
      w.ctx ac = some c → c.replies = subs.map Submission.entry →
      w.event e = some { context := ac } →
      events.flatten.length ≤ subs.length →
      ∃ w1 c1, readEvents w e events = some w1 ∧ w1.ctx ac = some c1 ∧
        c1.replies = (subs.drop events.flatten.length).map Submission.entry ∧
        c1.ev = c.ev ∧ c1.err = c.err ∧
        w1.received =
          w.received ++ (events.flatten.map some).zip (subs.map (fun s => s.privdata)) := by
  induction events with
  | nil =>
    intro w c subs hc hq _ _
    exact ⟨w, c, rfl, hc, by simpa using hq, rfl, rfl, by simp⟩
  | cons rs rest ih =>
    intro w c subs hc hq he hlen
    have hlen0 : rs.length + rest.flatten.length ≤ subs.length := by simpa using hlen
    have hlen1 : rs.length ≤ subs.length := by omega
    obtain ⟨w1, c1, h1, hc1, hq1, hev1c, herr1, he1, hr1⟩ :=
      processReplies_fifo rs w c subs hc hq hlen1
    have hev1 : w1.event e = some { context := ac } := by
      simpa [World.event, he1] using he
    have hlen2 : rest.flatten.length ≤ (subs.drop rs.length).length := by
      simp only [List.length_drop]; omega
    obtain ⟨w2, c2, h2, hc2, hq2, hev2, herr2, hr2⟩ :=
      ih w1 c1 (subs.drop rs.length) hc1 hq1 hev1 hlen2
    refine ⟨w2, c2, ?_, hc2, ?_, ?_, herr2.trans herr1, ?_⟩
    · simp [readEvents, readEvent_eq rs he, redisAsyncHandleRead, hc, h1, h2]
    · simpa [List.drop_drop, Nat.add_comm] using hq2
    · exact hev2.trans hev1c
    · rw [hr2, hr1]
      have hz := zip_append_drop (rs.map some) (rest.flatten.map some)
        (subs.map (fun s => s.privdata)) (by simpa using hlen1)
      simp only [List.flatten_cons, List.map_append, hz, List.length_map, List.map_drop,
        List.append_assoc]

/-- C3: on a context attached by the bridge whose command queue is empty,
`N` accepted submissions through `redisAsyncCommandArgvWrapper` all return
`REDIS_OK`; when read-readiness events then carry `k ≤ N` complete replies in
all, `asyncReceive` is invoked exactly `k` more times, the `i`-th invocation
with the `i`-th reply and the userData of the `i`-th submission, and the
queue is left holding the entries of the submissions not yet answered, in
order, with no connection error raised.  With `k = N` that is one invocation
per submission and an empty queue. -/
theorem replies_in_submission_order (w : World) (ac e : Ptr) (c : redisAsyncContext)
    (subs : List Submission) (events : List (List redisReply))
    (hc : w.ctx ac = some c) (hq : c.replies = [])
    (hk : c.ev.addWrite = HookFn.redisGoroutineAddWrite)
    (he : w.event e = some { context := ac })
    (hs : ∀ s ∈ subs, argvOk s.argc s.argv s.argvlen = true)
    (hlen : events.flatten.length ≤ subs.length) :
    ∃ w1 w2 c2, submitAll w ac subs = some (List.replicate subs.length REDIS_OK, w1) ∧
      readEvents w1 e events = some w2 ∧
      w2.received =
        w.received ++ (events.flatten.map some).zip (subs.map (fun s => s.privdata)) ∧
      w2.ctx ac = some c2 ∧ c2.err = c.err ∧
      c2.replies = (subs.drop events.flatten.length).map Submission.entry ∧
      (events.flatten.length = subs.length →
        c2.replies = [] ∧ w2.received.length = w.received.length + subs.length) := by
  obtain ⟨w1, c1, h1, hc1, hq1, _, herr1, he1, hr1⟩ := submitAll_ok subs w c hc hk hs
  have hq1 : c1.replies = subs.map Submission.entry := by simpa [hq] using hq1
  have hev1 : w1.event e = some { context := ac } := by
    simpa [World.event, he1] using he
  obtain ⟨w2, c2, h2, hc2, hq2, _, herr2, hr2⟩ :=
    readEvents_fifo events w1 c1 subs hc1 hq1 hev1 hlen
  refine ⟨w1, w2, c2, h1, h2, by rw [hr2, hr1], hc2, herr2.trans herr1, hq2, ?_⟩
  intro hN
  constructor
  · rw [hq2, hN, List.drop_length]
    rfl
  · rw [hr2, hr1, List.length_append, List.length_zip, List.length_map, List.length_map, hN,
      Nat.min_self]

theorem replies_in_submission_order_witness :
    ∃ w1 w2 c2,
      submitAll attachedWorld 1 [pingWith 0 11, pingWith 5 22, pingWith 9 33] =
        some (List.replicate [pingWith 0 11, pingWith 5 22, pingWith 9 33].length REDIS_OK,
          w1) ∧
      readEvents w1 1 [[statusReply, errorReply]] = some w2 ∧
      w2.received =
        attachedWorld.received ++
          ([[statusReply, errorReply]].flatten.map some).zip
            ([pingWith 0 11, pingWith 5 22, pingWith 9 33].map (fun s => s.privdata)) ∧
      w2.ctx 1 = some c2 ∧ c2.err = attachedContext.err ∧
      c2.replies =
        ([pingWith 0 11, pingWith 5 22, pingWith 9 33].drop
          [[statusReply, errorReply]].flatten.length).map Submission.entry ∧
      ([[statusReply, errorReply]].flatten.length =
          [pingWith 0 11, pingWith 5 22, pingWith 9 33].length →
        c2.replies = [] ∧
          w2.received.length =
            attachedWorld.received.length +
              [pingWith 0 11, pingWith 5 22, pingWith 9 33].length) :=
  replies_in_submission_order attachedWorld 1 1 attachedContext
    [pingWith 0 11, pingWith 5 22, pingWith 9 33] [[statusReply, errorReply]]
    rfl rfl rfl rfl (by simp [pingWith, argvOk]) (by decide)

/-- C5: `redisAsyncCatch` makes exactly one call, `asyncReceive` with the
reply and the userData it was given, whatever the reply is, an error reply
or a null reply included; the host takes delivery of exactly that pair and
no context is touched.  The wrapper submits with `redisAsyncCatch` and the
userData whatever its `fn` argument is.  Consequently the reply to a command
submitted through the wrapper with userData `p` is delivered with `p`, and
the context records no error. -/
theorem redisAsyncCatch_passes_through (w : World) (ac e : Ptr) (c : redisAsyncContext)
    (s : Submission) (r : redisReply)
    (hc : w.ctx ac = some c) (hq : c.replies = [])
    (hk : c.ev.addWrite = HookFn.redisGoroutineAddWrite)
    (he : w.event e = some { context := ac })
    (hs : argvOk s.argc s.argv s.argvlen = true) :
    (∀ (cx : Ptr) (x : Option redisReply) (p : Ptr),
      redisAsyncCatch cx x p = [GoCall.asyncReceive x p]) ∧
    (∀ (v : World) (cx : Ptr) (x : Option redisReply) (p : Ptr),
      (runGo (redisAsyncCatch cx x p) v).received = v.received ++ [(x, p)] ∧
      (runGo (redisAsyncCatch cx x p) v).ctxs = v.ctxs ∧
      (runGo (redisAsyncCatch cx x p) v).events = v.events) ∧
    (∀ fn2 : Ptr,
      redisAsyncCommandArgvWrapper ac fn2 s.privdata s.argc s.argv s.argvlen =
        HiredisCall.redisAsyncCommandArgv ac ReplyFn.redisAsyncCatch s.privdata s.argc
          s.argv s.argvlen) ∧
    ∃ w1 w2 c2, submit w ac s = some (REDIS_OK, w1) ∧ readEvent w1 e [r] = some w2 ∧
      w2.received = w.received ++ [(some r, s.privdata)] ∧
      w2.ctx ac = some c2 ∧ c2.err = c.err := by
  refine ⟨fun _ _ _ => rfl, fun _ _ _ _ => ⟨rfl, rfl, rfl⟩, fun _ => rfl, ?_⟩
  obtain ⟨w1, h1, hc1, he1, hr1⟩ := submit_ok s hc hk hs
  have hev1 : w1.event e = some { context := ac } := by
    simpa [World.event, he1] using he
  obtain ⟨w2, c2, h2, hc2, _, _, herr2, _, hr2⟩ :=
    processReplies_fifo [r] w1 _ [s] hc1 (by simp [hq]) (by simp)
  refine ⟨w1, w2, c2, h1, ?_, ?_, hc2, herr2⟩
  · rw [readEvent_eq [r] hev1]
    simp [redisAsyncHandleRead, hc1, h2]
  · rw [hr2, hr1]
    simp

theorem redisAsyncCatch_passes_through_witness :
    (∀ (cx : Ptr) (x : Option redisReply) (p : Ptr),
      redisAsyncCatch cx x p = [GoCall.asyncReceive x p]) ∧
    (∀ (v : World) (cx : Ptr) (x : Option redisReply) (p : Ptr),
      (runGo (redisAsyncCatch cx x p) v).received = v.received ++ [(x, p)] ∧
      (runGo (redisAsyncCatch cx x p) v).ctxs = v.ctxs ∧
      (runGo (redisAsyncCatch cx x p) v).events = v.events) ∧
    (∀ fn2 : Ptr,
      redisAsyncCommandArgvWrapper 1 fn2 (pingWith 7 42).privdata (pingWith 7 42).argc
          (pingWith 7 42).argv (pingWith 7 42).argvlen =
        HiredisCall.redisAsyncCommandArgv 1 ReplyFn.redisAsyncCatch (pingWith 7 42).privdata
          (pingWith 7 42).argc (pingWith 7 42).argv (pingWith 7 42).argvlen) ∧
    ∃ w1 w2 c2, submit attachedWorld 1 (pingWith 7 42) = some (REDIS_OK, w1) ∧
      readEvent w1 1 [errorReply] = some w2 ∧
      w2.received =
        attachedWorld.received ++ [(some errorReply, (pingWith 7 42).privdata)] ∧
      w2.ctx 1 = some c2 ∧ c2.err = attachedContext.err :=
  redisAsyncCatch_passes_through attachedWorld 1 1 attachedContext (pingWith 7 42) errorReply
    rfl rfl rfl rfl rfl

end GoRedis
